import Mathlib

/-!
Shallow embedding of the tuliprox streaming-gateway core, translated from the
Rust sources:

* `src/src/api/model/active_user_manager.rs` — per-user connection accounting
  with the grace-period state machine (`ActiveUserManager`).
* `src/backend/src/api/api_utils.rs` — provider URL rewriting
  (`get_stream_alternative_url`, `get_redirect_alternative_url`).
* `src/backend/src/model/config/base.rs` — canned-response loading
  (`load_and_set_file` inside `prepare_custom_stream_response`).
* `src/backend/src/processing/parser/xmltv.rs` — EPG merge (`flatten_tvguide`)
  and fuzzy channel matching (`try_fuzzy_matching`, `find_best_fuzzy_match`).

Rust `u64`/`u32`/`usize` values are modelled as `Nat`; the only subtractions
performed by the embedded code (`now - grace_ts`, `connections - 1`) are ones
the program only reaches with the subtrahend not exceeding the minuend
(timestamps come from the same monotonic clock, the decrement is guarded by
`connections > 0`), so truncated `Nat` subtraction coincides with the `u64`
arithmetic on the reachable states. `i16` priorities are modelled as `Int`.
Asynchronous lock-protected methods are modelled as pure state transformers on
the user map; `tokio::spawn`ed bodies (the `Drop` of `UserConnectionGuard`)
are modelled as the function they run.
-/

/-- Permission verdict for a user connection attempt, from
`UserConnectionPermission` (referenced by `active_user_manager.rs`). -/
inductive UserConnectionPermission where
  | Allowed
  | GracePeriod
  | Exhausted
deriving DecidableEq, Repr

open UserConnectionPermission

/-- A user session, from `struct UserSession` in `active_user_manager.rs`. -/
structure UserSession where
  token : Nat
  virtual_id : Nat
  provider : String
  stream_url : String
  ts : Nat
  permission : UserConnectionPermission
deriving DecidableEq, Repr

/-- Per-user connection record, from `struct UserConnectionData` in
`active_user_manager.rs`. -/
structure UserConnectionData where
  max_connections : Nat
  connections : Nat
  granted_grace : Bool
  grace_ts : Nat
  sessions : List UserSession
deriving DecidableEq, Repr

/-- `UserConnectionData::new(connections, max_connections)`. -/
def UserConnectionData.new (connections max_connections : Nat) : UserConnectionData :=
  { max_connections := max_connections
    connections := connections
    granted_grace := false
    grace_ts := 0
    sessions := [] }

/-- The `ActiveUserManager`'s user map (`HashMap<String, UserConnectionData>`),
modelled as a partial function from usernames. -/
def UserMap : Type := String → Option UserConnectionData

/-- Pointwise update of the user map (a `HashMap` insert / in-place mutation). -/
def setUser (m : UserMap) (u : String) (d : Option UserConnectionData) : UserMap :=
  fun v => if v = u then d else m v

/-- `ActiveUserManager::check_connection_permission`: decides a permission for a
user that already has a connection record and updates the record's grace
state.  `gpMillis` is `self.grace_period_millis`, `timeout` is
`self.grace_period_timeout_secs`, `now` is `get_current_timestamp()`. Returns
the permission together with the mutated record. -/
def check_connection_permission (gpMillis timeout now : Nat)
    (d : UserConnectionData) : UserConnectionPermission × UserConnectionData :=
  if d.connections < d.max_connections then
    -- Reset grace period because user is back under max_connections
    (Allowed, { d with granted_grace := false, grace_ts := 0 })
  else if d.granted_grace ∧ d.connections > d.max_connections ∧
      now - d.grace_ts ≤ timeout then
    -- Grace timeout still active, deny connection
    (Exhausted, d)
  else
    -- Grace timeout expired (when it was granted), reset grace counters
    let d1 := if d.granted_grace then { d with granted_grace := false, grace_ts := 0 } else d
    if gpMillis > 0 ∧ d1.connections = d1.max_connections then
      -- Allow grace period once
      (GracePeriod, { d1 with granted_grace := true, grace_ts := now })
    else
      -- Too many connections, no grace allowed
      (Exhausted, d1)

/-- `ActiveUserManager::connection_permission(username, max_connections)`:
returns the permission and the possibly-updated user map. -/
def connection_permission (gpMillis timeout now : Nat) (st : UserMap)
    (username : String) (max_connections : Nat) :
    UserConnectionPermission × UserMap :=
  if max_connections > 0 then
    match st username with
    | some d =>
        let r := check_connection_permission gpMillis timeout now d
        (r.1, setUser st username (some r.2))
    | none => (Allowed, st)
  else
    (Allowed, st)

/-- `ActiveUserManager::add_connection(username, max_connections)` (map part;
the returned `UserConnectionGuard` is modelled by `UserConnectionGuard`). -/
def add_connection (st : UserMap) (username : String) (max_connections : Nat) :
    UserMap :=
  match st username with
  | some d =>
      setUser st username
        (some { d with connections := d.connections + 1, max_connections := max_connections })
  | none => setUser st username (some (UserConnectionData.new 1 max_connections))

/-- `ActiveUserManager::remove_connection(username)`. -/
def remove_connection (st : UserMap) (username : String) : UserMap :=
  match st username with
  | some d =>
      let c := if d.connections > 0 then d.connections - 1 else d.connections
      let d1 := { d with connections := c }
      let d2 :=
        if d1.connections = 0 ∨ d1.connections < d1.max_connections then
          -- reset grace counters
          { d1 with granted_grace := false, grace_ts := 0 }
        else d1
      setUser st username (some d2)
  | none => st

/-- The guard handed out by `add_connection`, from `struct UserConnectionGuard`
(it retains the username it was issued for). -/
structure UserConnectionGuard where
  username : String

/-- `impl Drop for UserConnectionGuard`: dropping the guard spawns
`manager.remove_connection(&username)`; modelled as running that call. -/
def dropUserConnectionGuard (st : UserMap) (g : UserConnectionGuard) : UserMap :=
  remove_connection st g.username

/-- `ActiveUserManager::find_user_session`. -/
def find_user_session (token : Nat) (sessions : List UserSession) :
    Option UserSession :=
  sessions.find? (fun session => session.token == token)

/-- `ActiveUserManager::new_user_session` (the random token and current time
are passed in explicitly). -/
def new_user_session (session_token virtual_id : Nat)
    (provider stream_url : String) (now : Nat)
    (p : UserConnectionPermission) : UserSession :=
  { token := session_token
    virtual_id := virtual_id
    provider := provider
    stream_url := stream_url
    ts := now
    permission := p }

/-- `ActiveUserManager::create_user_session` (map part; the `gc()` side effect
is modelled separately as `session_gc`, and the random token is an explicit
argument).  `user_max` is `user.max_connections`. -/
def create_user_session (st : UserMap) (username : String) (user_max : Nat)
    (session_token virtual_id : Nat) (provider stream_url : String)
    (now : Nat) (p : UserConnectionPermission) : UserMap :=
  let session := new_user_session session_token virtual_id provider stream_url now p
  match st username with
  | some d => setUser st username (some { d with sessions := d.sessions ++ [session] })
  | none =>
      let d := UserConnectionData.new 0 user_max
      setUser st username (some { d with sessions := d.sessions ++ [session] })

/-- `USER_CON_TTL` (3 hours, seconds). -/
def USER_CON_TTL : Nat := 10800

/-- `ActiveUserManager::gc` (the inner sweep, run when the stored `gc_ts` is
older than `USER_CON_TTL`): drops sessions older than the TTL. -/
def session_gc (st : UserMap) (now : Nat) : UserMap :=
  fun v =>
    match st v with
    | some d => some { d with sessions := d.sessions.filter (fun s => now - s.ts < USER_CON_TTL) }
    | none => none

/-- Index of the first session with the given token,
mirroring the `found_session_index` loop in `update_user_session`. -/
def find_session_index (token : Nat) : List UserSession → Option Nat
  | [] => none
  | session :: rest =>
      if session.token = token then some 0
      else (find_session_index token rest).map (· + 1)

/-- `ActiveUserManager::update_user_session(username, token)` (the body of
`get_user_session`): returns the session snapshot and the updated map. -/
def update_user_session (gpMillis timeout now : Nat) (st : UserMap)
    (username : String) (token : Nat) : Option UserSession × UserMap :=
  match st username with
  | some d =>
      if d.max_connections = 0 then
        (find_user_session token d.sessions, st)
      else
        match find_session_index token d.sessions with
        | some index =>
            match d.sessions[index]? with
            | some s =>
                if s.permission = GracePeriod then
                  let r := check_connection_permission gpMillis timeout now d
                  let d1 := { r.2 with sessions := r.2.sessions.set index { s with permission := r.1 } }
                  ((d1.sessions[index]?), setUser st username (some d1))
                else
                  (some s, st)
            | none => (none, st)
        | none => (none, st)
  | none => (none, st)

/-- `ActiveUserManager::get_user_session` delegates to `update_user_session`. -/
def get_user_session (gpMillis timeout now : Nat) (st : UserMap)
    (username : String) (token : Nat) : Option UserSession × UserMap :=
  update_user_session gpMillis timeout now st username token

/-! ### Theorems: user connection permission -/

/-- The empty user map (no user has connected or created a session yet). -/
def emptyUserMap : UserMap := fun _ => none

/-- A concrete user record that refutes claim C1: exactly at `max_connections`
(not above it), grace already granted and the cooldown still running. -/
def c1Record : UserConnectionData :=
  { max_connections := 1
    connections := 1
    granted_grace := true
    grace_ts := 100
    sessions := [] }

/-- A one-user map holding `c1Record` under username `u`. -/
def c1Map : UserMap := setUser emptyUserMap "u" (some c1Record)

/-- C1 counterexample: a user with `max_connections = 1 > 0`, `granted_grace`
set, connection count `1 ≥ 1 = max`, and `now - grace_ts = 0 ≤ 60` (the
cooldown has not elapsed) is *not* answered `Exhausted` by
`connection_permission`: the code re-grants grace (`GracePeriod`), because the
`Exhausted` branch requires `connections > max_connections` strictly. -/
theorem c1_grace_regrant_at_max :
    0 < c1Record.max_connections ∧
    c1Record.granted_grace = true ∧
    c1Record.max_connections ≤ c1Record.connections ∧
    100 - c1Record.grace_ts ≤ 60 ∧
    (connection_permission 1000 60 100 c1Map "u" c1Record.max_connections).1 =
      UserConnectionPermission.GracePeriod := by
  decide

/-- C1 (amended): for a user record with `max_connections = m > 0`, grace
already granted, connection count *strictly above* `m`, and the cooldown not
elapsed (`now - grace_ts ≤ grace_period_timeout_secs`), a further
`connection_permission` check returns `Exhausted`: grace is granted at most
once per exceedance while the cooldown has not elapsed. -/
theorem connection_permission_grace_once (gpMillis timeout now : Nat)
    (st : UserMap) (u : String) (d : UserConnectionData)
    (hd : st u = some d) (hmax : 0 < d.max_connections)
    (hg : d.granted_grace = true)
    (hover : d.max_connections < d.connections)
    (hcool : now - d.grace_ts ≤ timeout) :
    (connection_permission gpMillis timeout now st u d.max_connections).1 =
      UserConnectionPermission.Exhausted := by
  have hnotlt : ¬ d.connections < d.max_connections := by omega
  simp only [connection_permission, hmax, if_pos, hd]
  simp [check_connection_permission, hnotlt, hg, hover, hcool]

/-- A concrete over-budget record for the `connection_permission_grace_once`
witness. -/
def c1wRecord : UserConnectionData :=
  { max_connections := 1
    connections := 2
    granted_grace := true
    grace_ts := 90
    sessions := [] }

/-- A one-user map holding `c1wRecord` under username `v`. -/
def c1wMap : UserMap := setUser emptyUserMap "v" (some c1wRecord)

/-- Witness for `connection_permission_grace_once` at a concrete state. -/
theorem connection_permission_grace_once_witness :
    (connection_permission 1000 60 100 c1wMap "v" c1wRecord.max_connections).1 =
      UserConnectionPermission.Exhausted :=
  connection_permission_grace_once 1000 60 100 c1wMap "v" c1wRecord rfl
    (by decide) rfl (by decide) (by decide)

/-- C6: `connection_permission` with `max_connections = 0` (unlimited) returns
`Allowed` and leaves the user map — every user's connection count, grace flag,
grace timestamp and session list — untouched. -/
theorem connection_permission_unlimited_pure (gpMillis timeout now : Nat)
    (st : UserMap) (u : String) :
    connection_permission gpMillis timeout now st u 0 = (UserConnectionPermission.Allowed, st) :=
  rfl

/-- C10: a username with no entry in the user map is answered `Allowed` by
`connection_permission` for every `max_connections` value (including positive
ones), with the map unchanged: the quota state machine only applies to users
that already have a connection record. -/
theorem connection_permission_unknown_user (gpMillis timeout now : Nat)
    (st : UserMap) (u : String) (max_connections : Nat)
    (h : st u = none) :
    connection_permission gpMillis timeout now st u max_connections =
      (UserConnectionPermission.Allowed, st) := by
  unfold connection_permission
  by_cases hm : max_connections > 0
  · simp [hm, h]
  · simp [hm]

/-- Witness for `connection_permission_unknown_user`: fresh user, positive
max. -/
theorem connection_permission_unknown_user_witness :
    connection_permission 1000 60 100 emptyUserMap "alice" 3 =
      (UserConnectionPermission.Allowed, emptyUserMap) :=
  connection_permission_unknown_user 1000 60 100 emptyUserMap "alice" 3 rfl

/-- Closed form of `remove_connection` on a user that has a record. -/
theorem remove_connection_eq (st : UserMap) (u : String)
    (d : UserConnectionData) (hd : st u = some d) :
    remove_connection st u = setUser st u (some
      (if d.connections - 1 = 0 ∨ d.connections - 1 < d.max_connections then
        { d with connections := d.connections - 1, granted_grace := false, grace_ts := 0 }
      else
        { d with connections := d.connections - 1 })) := by
  have hc : (if d.connections > 0 then d.connections - 1 else d.connections) =
      d.connections - 1 := by
    by_cases h : d.connections > 0
    · simp [h]
    · simp only [h, if_neg, if_false]
      omega
  unfold remove_connection
  rw [hd]
  simp only [hc]

/-- C5: dropping a `UserConnectionGuard` runs `remove_connection` on its
username: the user's connection count drops by exactly one (floored at zero),
`granted_grace`/`grace_ts` are reset exactly when the resulting count is zero
or strictly below `max_connections` (and preserved otherwise), the session
list and `max_connections` are untouched, and no other user's record changes. -/
theorem user_guard_drop_semantics (st : UserMap) (g : UserConnectionGuard)
    (d : UserConnectionData) (hd : st g.username = some d) :
    ∃ d', (dropUserConnectionGuard st g) g.username = some d' ∧
      d'.connections = d.connections - 1 ∧
      d'.max_connections = d.max_connections ∧
      d'.sessions = d.sessions ∧
      ((d'.connections = 0 ∨ d'.connections < d.max_connections) →
        d'.granted_grace = false ∧ d'.grace_ts = 0) ∧
      (¬ (d'.connections = 0 ∨ d'.connections < d.max_connections) →
        d'.granted_grace = d.granted_grace ∧ d'.grace_ts = d.grace_ts) ∧
      (∀ v, v ≠ g.username → (dropUserConnectionGuard st g) v = st v) := by
  unfold dropUserConnectionGuard
  rw [remove_connection_eq st g.username d hd]
  by_cases hreset : d.connections - 1 = 0 ∨ d.connections - 1 < d.max_connections
  · refine ⟨⟨d.max_connections, d.connections - 1, false, 0, d.sessions⟩, ?_, rfl, rfl, rfl,
      fun _ => ⟨rfl, rfl⟩, fun hn => absurd hreset hn, ?_⟩
    · simp [setUser, hreset]
    · intro v hv
      simp [setUser, hv]
  · refine ⟨⟨d.max_connections, d.connections - 1, d.granted_grace, d.grace_ts, d.sessions⟩,
      ?_, rfl, rfl, rfl, fun h => absurd h hreset, fun _ => ⟨rfl, rfl⟩, ?_⟩
    · simp [setUser, hreset]
    · intro v hv
      simp [setUser, hv]

/-- A concrete record for the `user_guard_drop_semantics` witness: two
connections, max 1. -/
def c5Record : UserConnectionData :=
  { max_connections := 1
    connections := 2
    granted_grace := true
    grace_ts := 5
    sessions := [] }

/-- A one-user map holding `c5Record` under username `w`. -/
def c5Map : UserMap := setUser emptyUserMap "w" (some c5Record)

/-- Witness for `user_guard_drop_semantics`: a user at two connections with
max 1 drops to one connection. -/
theorem user_guard_drop_semantics_witness :
    ∃ d', (dropUserConnectionGuard c5Map ⟨"w"⟩) "w" = some d' ∧
      d'.connections = c5Record.connections - 1 ∧
      d'.max_connections = c5Record.max_connections ∧
      d'.sessions = c5Record.sessions ∧
      ((d'.connections = 0 ∨ d'.connections < c5Record.max_connections) →
        d'.granted_grace = false ∧ d'.grace_ts = 0) ∧
      (¬ (d'.connections = 0 ∨ d'.connections < c5Record.max_connections) →
        d'.granted_grace = c5Record.granted_grace ∧ d'.grace_ts = c5Record.grace_ts) ∧
      (∀ v, v ≠ "w" → (dropUserConnectionGuard c5Map ⟨"w"⟩) v = c5Map v) :=
  user_guard_drop_semantics c5Map ⟨"w"⟩ c5Record rfl

/-! ### The user-manager operation algebra (for claim C4) -/

/-- An operation on the `ActiveUserManager` user map: every public mutating
entry point of `active_user_manager.rs`, with clock readings and the random
session token as explicit data. -/
inductive UserOp where
  | connPerm (username : String) (max_connections now : Nat)
  | addConn (username : String) (max_connections : Nat)
  | guardDrop (username : String)
  | createSession (username : String) (user_max session_token virtual_id : Nat)
      (provider stream_url : String) (now : Nat) (p : UserConnectionPermission)
  | getSession (username : String) (token now : Nat)
  | gcSweep (now : Nat)

/-- One step of the user manager: dispatches a `UserOp` to the embedded
method. -/
def userStep (gpMillis timeout : Nat) (st : UserMap) : UserOp → UserMap
  | .connPerm u mx now => (connection_permission gpMillis timeout now st u mx).2
  | .addConn u mx => add_connection st u mx
  | .guardDrop u => dropUserConnectionGuard st ⟨u⟩
  | .createSession u um tok vid prov url now p =>
      create_user_session st u um tok vid prov url now p
  | .getSession u tok now => (get_user_session gpMillis timeout now st u tok).2
  | .gcSweep now => session_gc st now

/-- The session appended by a `createSession` operation, `none` for every
other operation. -/
def UserOp.freshSession : UserOp → Option UserSession
  | .createSession _ _ tok vid prov url now p =>
      some (new_user_session tok vid prov url now p)
  | _ => none

/-- `check_connection_permission` only touches the grace fields: the session
list, connection count and maximum of the record are preserved. -/
theorem check_connection_permission_frame (gpMillis timeout now : Nat)
    (d : UserConnectionData) :
    ((check_connection_permission gpMillis timeout now d).2).sessions = d.sessions ∧
    ((check_connection_permission gpMillis timeout now d).2).connections = d.connections ∧
    ((check_connection_permission gpMillis timeout now d).2).max_connections = d.max_connections := by
  unfold check_connection_permission
  split
  · exact ⟨rfl, rfl, rfl⟩
  · split
    · exact ⟨rfl, rfl, rfl⟩
    · cases hgg : d.granted_grace
      · simp only [hgg, Bool.false_eq_true, if_false]
        split
        · exact ⟨rfl, rfl, rfl⟩
        · exact ⟨rfl, rfl, rfl⟩
      · simp only [hgg, if_true]
        split
        · exact ⟨rfl, rfl, rfl⟩
        · exact ⟨rfl, rfl, rfl⟩

/-- `find_session_index` returns an index whose session carries the searched
token. -/
theorem find_session_index_spec (token : Nat) (l : List UserSession) (i : Nat)
    (h : find_session_index token l = some i) :
    ∃ s, l[i]? = some s ∧ s.token = token := by
  induction l generalizing i with
  | nil => simp [find_session_index] at h
  | cons hd tl ih =>
      unfold find_session_index at h
      by_cases htok : hd.token = token
      · simp only [htok, if_pos] at h
        cases h
        exact ⟨hd, by simp, htok⟩
      · simp only [htok, if_neg, if_false, Option.map_eq_some'] at h
        obtain ⟨j, hj, rfl⟩ := h
        obtain ⟨s, hs, hstok⟩ := ih j hj
        exact ⟨s, by simpa using hs, hstok⟩

/-- `setUser` read back at the written key. -/
theorem setUser_self (m : UserMap) (u : String) (d : Option UserConnectionData) :
    setUser m u d u = d := by
  simp [setUser]

/-- `setUser` read back at a different key. -/
theorem setUser_other (m : UserMap) (u : String) (d : Option UserConnectionData)
    (v : String) (h : v ≠ u) : setUser m u d v = m v := by
  simp [setUser, h]

/-- C4: (a) session lookup (`update_user_session`) only ever rewrites a stored
session in place when its permission is `GracePeriod`, replacing it with the
freshly evaluated permission of `check_connection_permission`; any session
slot that changes held the looked-up token with permission `GracePeriod`.
(b) Across every user-manager operation, any session present afterwards is an
unchanged pre-existing session, the freshly appended session of a
`createSession` call, or a pre-existing `GracePeriod` session with only its
permission replaced — in particular a session whose permission is `Exhausted`
is never rewritten (never upgraded) by any operation. -/
theorem session_permission_discipline (gpMillis timeout : Nat) :
    (∀ (now : Nat) (st : UserMap) (u : String) (tok : Nat) (v : String)
        (d d' : UserConnectionData),
      st v = some d →
      (update_user_session gpMillis timeout now st u tok).2 v = some d' →
      ∀ (i : Nat), d'.sessions[i]? ≠ d.sessions[i]? →
        ∃ (s : UserSession), d.sessions[i]? = some s ∧
          s.permission = GracePeriod ∧ s.token = tok ∧
          d'.sessions[i]? =
            some { s with permission := (check_connection_permission gpMillis timeout now d).1 }) ∧
    (∀ (st : UserMap) (op : UserOp) (v : String) (d d' : UserConnectionData),
      st v = some d →
      userStep gpMillis timeout st op v = some d' →
      ∀ s' ∈ d'.sessions,
        s' ∈ d.sessions ∨ op.freshSession = some s' ∨
        ∃ s ∈ d.sessions, s.permission = GracePeriod ∧
          ∃ (p : UserConnectionPermission), s' = { s with permission := p }) := by
  constructor
  · intro now st u tok v d d' hv hpost i hne
    unfold update_user_session at hpost
    cases hu : st u with
    | none =>
        rw [hu] at hpost
        simp only at hpost
        rw [hv] at hpost
        cases hpost
        exact absurd rfl hne
    | some du =>
        rw [hu] at hpost
        simp only at hpost
        by_cases hm0 : du.max_connections = 0
        · rw [if_pos hm0] at hpost
          simp only at hpost
          rw [hv] at hpost
          cases hpost
          exact absurd rfl hne
        · rw [if_neg hm0] at hpost
          cases hidx : find_session_index tok du.sessions with
          | none =>
              rw [hidx] at hpost
              simp only at hpost
              rw [hv] at hpost
              cases hpost
              exact absurd rfl hne
          | some index =>
              rw [hidx] at hpost
              simp only at hpost
              cases hsi : du.sessions[index]? with
              | none =>
                  rw [hsi] at hpost
                  simp only at hpost
                  rw [hv] at hpost
                  cases hpost
                  exact absurd rfl hne
              | some s =>
                  rw [hsi] at hpost
                  simp only at hpost
                  by_cases hperm : s.permission = GracePeriod
                  · rw [if_pos hperm] at hpost
                    simp only at hpost
                    by_cases hvu : v = u
                    · subst hvu
                      rw [hv] at hu
                      cases hu
                      rw [setUser_self] at hpost
                      cases hpost
                      have hsess :
                          (check_connection_permission gpMillis timeout now d).2.sessions =
                            d.sessions :=
                        (check_connection_permission_frame gpMillis timeout now d).1
                      by_cases hii : i = index
                      · subst hii
                        refine ⟨s, hsi, hperm, ?_, ?_⟩
                        · obtain ⟨s2, hs2, hs2tok⟩ :=
                            find_session_index_spec tok d.sessions i hidx
                          rw [hsi] at hs2
                          cases hs2
                          exact hs2tok
                        · have hlen : i < d.sessions.length := by
                            rw [List.getElem?_eq_some] at hsi
                            exact hsi.1
                          simp only [hsess]
                          rw [List.getElem?_set_eq (by simpa [hsess] using hlen)]
                      · exfalso
                        apply hne
                        simp only [hsess]
                        rw [List.getElem?_set_ne (fun h => hii h.symm)]
                    · rw [setUser_other _ _ _ _ hvu] at hpost
                      rw [hv] at hpost
                      cases hpost
                      exact absurd rfl hne
                  · rw [if_neg hperm] at hpost
                    simp only at hpost
                    rw [hv] at hpost
                    cases hpost
                    exact absurd rfl hne
  · intro st op v d d' hv hpost s' hs'
    cases op with
    | connPerm u mx now =>
        simp only [userStep, connection_permission] at hpost
        by_cases hmx : mx > 0
        · rw [if_pos hmx] at hpost
          cases hu : st u with
          | none =>
              rw [hu] at hpost
              simp only at hpost
              rw [hv] at hpost
              cases hpost
              exact Or.inl hs'
          | some du =>
              rw [hu] at hpost
              simp only at hpost
              by_cases hvu : v = u
              · subst hvu
                rw [hv] at hu
                cases hu
                rw [setUser_self] at hpost
                cases hpost
                rw [(check_connection_permission_frame gpMillis timeout now d).1] at hs'
                exact Or.inl hs'
              · rw [setUser_other _ _ _ _ hvu, hv] at hpost
                cases hpost
                exact Or.inl hs'
        · rw [if_neg hmx] at hpost
          simp only at hpost
          rw [hv] at hpost
          cases hpost
          exact Or.inl hs'
    | addConn u mx =>
        simp only [userStep, add_connection] at hpost
        cases hu : st u with
        | none =>
            rw [hu] at hpost
            simp only at hpost
            by_cases hvu : v = u
            · subst hvu
              rw [hv] at hu
              cases hu
            · rw [setUser_other _ _ _ _ hvu, hv] at hpost
              cases hpost
              exact Or.inl hs'
        | some du =>
            rw [hu] at hpost
            simp only at hpost
            by_cases hvu : v = u
            · subst hvu
              rw [hv] at hu
              cases hu
              rw [setUser_self] at hpost
              cases hpost
              exact Or.inl hs'
            · rw [setUser_other _ _ _ _ hvu, hv] at hpost
              cases hpost
              exact Or.inl hs'
    | guardDrop u =>
        simp only [userStep, dropUserConnectionGuard] at hpost
        cases hu : st u with
        | none =>
            unfold remove_connection at hpost
            rw [hu] at hpost
            simp only at hpost
            rw [hv] at hpost
            cases hpost
            exact Or.inl hs'
        | some du =>
            rw [remove_connection_eq st u du hu] at hpost
            by_cases hvu : v = u
            · subst hvu
              rw [hv] at hu
              cases hu
              rw [setUser_self] at hpost
              by_cases hr : d.connections - 1 = 0 ∨ d.connections - 1 < d.max_connections
              · rw [if_pos hr] at hpost
                cases hpost
                exact Or.inl hs'
              · rw [if_neg hr] at hpost
                cases hpost
                exact Or.inl hs'
            · rw [setUser_other _ _ _ _ hvu, hv] at hpost
              cases hpost
              exact Or.inl hs'
    | createSession u um tok vid prov url now p =>
        simp only [userStep, create_user_session] at hpost
        cases hu : st u with
        | none =>
            rw [hu] at hpost
            simp only at hpost
            by_cases hvu : v = u
            · subst hvu
              rw [hv] at hu
              cases hu
            · rw [setUser_other _ _ _ _ hvu, hv] at hpost
              cases hpost
              exact Or.inl hs'
        | some du =>
            rw [hu] at hpost
            simp only at hpost
            by_cases hvu : v = u
            · subst hvu
              rw [hv] at hu
              cases hu
              rw [setUser_self] at hpost
              cases hpost
              simp only at hs'
              rw [List.mem_append] at hs'
              rcases hs' with hs' | hs'
              · exact Or.inl hs'
              · rw [List.mem_singleton] at hs'
                subst hs'
                exact Or.inr (Or.inl rfl)
            · rw [setUser_other _ _ _ _ hvu, hv] at hpost
              cases hpost
              exact Or.inl hs'
    | getSession u tok now =>
        simp only [userStep, get_user_session] at hpost
        unfold update_user_session at hpost
        cases hu : st u with
        | none =>
            rw [hu] at hpost
            simp only at hpost
            rw [hv] at hpost
            cases hpost
            exact Or.inl hs'
        | some du =>
            rw [hu] at hpost
            simp only at hpost
            by_cases hm0 : du.max_connections = 0
            · rw [if_pos hm0] at hpost
              simp only at hpost
              rw [hv] at hpost
              cases hpost
              exact Or.inl hs'
            · rw [if_neg hm0] at hpost
              cases hidx : find_session_index tok du.sessions with
              | none =>
                  rw [hidx] at hpost
                  simp only at hpost
                  rw [hv] at hpost
                  cases hpost
                  exact Or.inl hs'
              | some index =>
                  rw [hidx] at hpost
                  simp only at hpost
                  cases hsi : du.sessions[index]? with
                  | none =>
                      rw [hsi] at hpost
                      simp only at hpost
                      rw [hv] at hpost
                      cases hpost
                      exact Or.inl hs'
                  | some s =>
                      rw [hsi] at hpost
                      simp only at hpost
                      by_cases hperm : s.permission = GracePeriod
                      · rw [if_pos hperm] at hpost
                        simp only at hpost
                        by_cases hvu : v = u
                        · subst hvu
                          rw [hv] at hu
                          cases hu
                          rw [setUser_self] at hpost
                          cases hpost
                          rw [(check_connection_permission_frame gpMillis timeout now d).1] at hs'
                          simp only at hs'
                          rcases List.mem_or_eq_of_mem_set hs' with hmem | heq
                          · exact Or.inl hmem
                          · subst heq
                            exact Or.inr (Or.inr
                              ⟨s, List.getElem?_mem hsi, hperm,
                                (check_connection_permission gpMillis timeout now d).1, rfl⟩)
                        · rw [setUser_other _ _ _ _ hvu, hv] at hpost
                          cases hpost
                          exact Or.inl hs'
                      · rw [if_neg hperm] at hpost
                        simp only at hpost
                        rw [hv] at hpost
                        cases hpost
                        exact Or.inl hs'
    | gcSweep now =>
        simp only [userStep, session_gc] at hpost
        rw [hv] at hpost
        simp only at hpost
        cases hpost
        exact Or.inl (List.mem_of_mem_filter hs')

/-- A concrete `Exhausted` session for the C4 witness. -/
def c4Session : UserSession :=
  { token := 7, virtual_id := 1, provider := "p", stream_url := "http://h/s",
    ts := 0, permission := Exhausted }

/-- A concrete record holding `c4Session`. -/
def c4Record : UserConnectionData :=
  { max_connections := 1, connections := 1, granted_grace := false,
    grace_ts := 0, sessions := [c4Session] }

/-- A one-user map holding `c4Record` under username `x`. -/
def c4Map : UserMap := setUser emptyUserMap "x" (some c4Record)

/-- Witness for `session_permission_discipline`: a GC sweep over a map holding
an `Exhausted` session leaves that session untouched. -/
theorem session_permission_discipline_witness :
    c4Session ∈ c4Record.sessions ∨
    (UserOp.gcSweep 0).freshSession = some c4Session ∨
    ∃ s ∈ c4Record.sessions, s.permission = GracePeriod ∧
      ∃ (p : UserConnectionPermission), c4Session = { s with permission := p } :=
  (session_permission_discipline 1000 60).2 c4Map (.gcSweep 0) "x" c4Record c4Record
    (by decide) (by decide) c4Session (by decide)

/-! ### URL rewriting (`api_utils.rs`) -/

/-- Rust `&str` / `String` values in the URL-rewriting code are modelled as
lists of characters, so substring replacement is list surgery. -/
abbrev Str := List Char

/-- Fuel-bounded worker for `str::replace`: scans left to right, replacing
every non-overlapping occurrence of `pat` by `rep`.  The fuel argument is
only a structural-recursion bound; any fuel at least the length of the
scanned string yields the same result (`replaceAllF_congr`). An empty `pat`
never matches here, while Rust's `str::replace` would insert `rep` at every
character boundary; the embedded call sites substitute provider base URLs and
credentials, which are non-empty. -/
def replaceAllF : Nat → Str → Str → Str → Str
  | 0, s, _, _ => s
  | fuel + 1, s, pat, rep =>
      match s with
      | [] => []
      | c :: rest =>
          if pat ≠ [] ∧ pat.isPrefixOf (c :: rest) then
            rep ++ replaceAllF fuel ((c :: rest).drop pat.length) pat rep
          else
            c :: replaceAllF fuel rest pat rep

/-- `str::replace`: replace every non-overlapping occurrence. -/
def replaceAll (s pat rep : Str) : Str := replaceAllF s.length s pat rep

/-- `str::replacen(pat, rep, 1)`: replace only the first occurrence. -/
def replaceOnce : Str → Str → Str → Str
  | [], _, _ => []
  | c :: rest, pat, rep =>
      if pat ≠ [] ∧ pat.isPrefixOf (c :: rest) then
        rep ++ (c :: rest).drop pat.length
      else
        c :: replaceOnce rest pat rep

/-- Fuel-bounded worker counting the non-overlapping occurrences of `pat`
that `str::replace` would substitute. -/
def countOccF : Nat → Str → Str → Nat
  | 0, _, _ => 0
  | fuel + 1, s, pat =>
      match s with
      | [] => 0
      | c :: rest =>
          if pat ≠ [] ∧ pat.isPrefixOf (c :: rest) then
            1 + countOccF fuel ((c :: rest).drop pat.length) pat
          else
            countOccF fuel rest pat

/-- Number of non-overlapping occurrences of `pat` in `s`. -/
def countOcc (s pat : Str) : Nat := countOccF s.length s pat

/-- The length of the tail after skipping a matched non-empty pattern is
strictly below the original length. -/
theorem drop_match_length_le (c : Char) (rest pat : Str) (hne : pat ≠ []) :
    ((c :: rest).drop pat.length).length ≤ rest.length := by
  have : 0 < pat.length := List.length_pos.mpr hne
  simp only [List.length_drop, List.length_cons]
  omega

/-- `replaceAllF` does not depend on the fuel once it covers the string. -/
theorem replaceAllF_congr (f1 : Nat) : ∀ (f2 : Nat) (s pat rep : Str),
    s.length ≤ f1 → s.length ≤ f2 →
    replaceAllF f1 s pat rep = replaceAllF f2 s pat rep := by
  induction f1 with
  | zero =>
      intro f2 s pat rep h1 _
      have hs : s = [] := List.eq_nil_of_length_eq_zero (Nat.le_zero.mp h1)
      subst hs
      cases f2 <;> rfl
  | succ f1 ih =>
      intro f2 s pat rep h1 h2
      cases s with
      | nil => cases f2 <;> rfl
      | cons c rest =>
          cases f2 with
          | zero => simp at h2
          | succ f2 =>
              simp only [replaceAllF]
              split
              case isTrue h =>
                  have hd := drop_match_length_le c rest pat h.1
                  have hr1 : rest.length ≤ f1 := by
                    simp only [List.length_cons] at h1; omega
                  have hr2 : rest.length ≤ f2 := by
                    simp only [List.length_cons] at h2; omega
                  rw [ih f2 _ pat rep (le_trans hd hr1) (le_trans hd hr2)]
              case isFalse h =>
                  have hr1 : rest.length ≤ f1 := by
                    simp only [List.length_cons] at h1; omega
                  have hr2 : rest.length ≤ f2 := by
                    simp only [List.length_cons] at h2; omega
                  rw [ih f2 rest pat rep hr1 hr2]

/-- One-step unfolding of `replaceAll` on a non-empty string. -/
theorem replaceAll_cons (c : Char) (rest pat rep : Str) :
    replaceAll (c :: rest) pat rep =
      if pat ≠ [] ∧ pat.isPrefixOf (c :: rest) then
        rep ++ replaceAll ((c :: rest).drop pat.length) pat rep
      else
        c :: replaceAll rest pat rep := by
  show replaceAllF ((c :: rest).length) (c :: rest) pat rep = _
  simp only [List.length_cons, replaceAllF]
  split
  case isTrue h =>
      rw [replaceAllF_congr rest.length _ _ pat rep
        (drop_match_length_le c rest pat h.1) (le_refl _)]
      rfl
  case isFalse h => rfl

/-- `countOccF` does not depend on the fuel once it covers the string. -/
theorem countOccF_congr (f1 : Nat) : ∀ (f2 : Nat) (s pat : Str),
    s.length ≤ f1 → s.length ≤ f2 →
    countOccF f1 s pat = countOccF f2 s pat := by
  induction f1 with
  | zero =>
      intro f2 s pat h1 _
      have hs : s = [] := List.eq_nil_of_length_eq_zero (Nat.le_zero.mp h1)
      subst hs
      cases f2 <;> rfl
  | succ f1 ih =>
      intro f2 s pat h1 h2
      cases s with
      | nil => cases f2 <;> rfl
      | cons c rest =>
          cases f2 with
          | zero => simp at h2
          | succ f2 =>
              simp only [countOccF]
              split
              case isTrue h =>
                  have hd := drop_match_length_le c rest pat h.1
                  have hr1 : rest.length ≤ f1 := by
                    simp only [List.length_cons] at h1; omega
                  have hr2 : rest.length ≤ f2 := by
                    simp only [List.length_cons] at h2; omega
                  rw [ih f2 _ pat (le_trans hd hr1) (le_trans hd hr2)]
              case isFalse h =>
                  have hr1 : rest.length ≤ f1 := by
                    simp only [List.length_cons] at h1; omega
                  have hr2 : rest.length ≤ f2 := by
                    simp only [List.length_cons] at h2; omega
                  rw [ih f2 rest pat hr1 hr2]

/-- One-step unfolding of `countOcc` on a non-empty string. -/
theorem countOcc_cons (c : Char) (rest pat : Str) :
    countOcc (c :: rest) pat =
      if pat ≠ [] ∧ pat.isPrefixOf (c :: rest) then
        1 + countOcc ((c :: rest).drop pat.length) pat
      else
        countOcc rest pat := by
  show countOccF ((c :: rest).length) (c :: rest) pat = _
  simp only [List.length_cons, countOccF]
  split
  case isTrue h =>
      rw [countOccF_congr rest.length _ _ pat
        (drop_match_length_le c rest pat h.1) (le_refl _)]
      rfl
  case isFalse h => rfl

/-- Replacing a pattern by itself is the identity. -/
theorem replaceAll_self (pat : Str) : ∀ (n : Nat) (s : Str), s.length ≤ n →
    replaceAll s pat pat = s := by
  intro n
  induction n with
  | zero =>
      intro s hs
      have : s = [] := List.eq_nil_of_length_eq_zero (Nat.le_zero.mp hs)
      subst this
      rfl
  | succ n ih =>
      intro s hs
      cases s with
      | nil => rfl
      | cons c rest =>
          rw [replaceAll_cons]
          split
          case isTrue h =>
              have hpre : pat <+: c :: rest := List.isPrefixOf_iff_prefix.mp h.2
              have happ : pat ++ (c :: rest).drop pat.length = c :: rest :=
                List.prefix_iff_eq_append.mp hpre
              have hd := drop_match_length_le c rest pat h.1
              have hr : rest.length ≤ n := by
                simp only [List.length_cons] at hs; omega
              rw [ih _ (le_trans hd hr)]
              exact happ
          case isFalse h =>
              have hr : rest.length ≤ n := by
                simp only [List.length_cons] at hs; omega
              rw [ih rest hr]

/-- A string with no occurrence of the pattern is left unchanged. -/
theorem replaceAll_no_occurrence (pat rep : Str) : ∀ (n : Nat) (s : Str),
    s.length ≤ n → countOcc s pat = 0 → replaceAll s pat rep = s := by
  intro n
  induction n with
  | zero =>
      intro s hs _
      have : s = [] := List.eq_nil_of_length_eq_zero (Nat.le_zero.mp hs)
      subst this
      rfl
  | succ n ih =>
      intro s hs hocc
      cases s with
      | nil => rfl
      | cons c rest =>
          rw [countOcc_cons] at hocc
          rw [replaceAll_cons]
          split
          case isTrue h =>
              rw [if_pos h] at hocc
              omega
          case isFalse h =>
              rw [if_neg h] at hocc
              have hr : rest.length ≤ n := by
                simp only [List.length_cons] at hs; omega
              rw [ih rest hr hocc]

/-- When the pattern occurs at most once, replacing all occurrences agrees
with replacing only the first. -/
theorem replaceAll_eq_replaceOnce (pat rep : Str) : ∀ (n : Nat) (s : Str),
    s.length ≤ n → countOcc s pat ≤ 1 →
    replaceAll s pat rep = replaceOnce s pat rep := by
  intro n
  induction n with
  | zero =>
      intro s hs _
      have : s = [] := List.eq_nil_of_length_eq_zero (Nat.le_zero.mp hs)
      subst this
      rfl
  | succ n ih =>
      intro s hs hocc
      cases s with
      | nil => rfl
      | cons c rest =>
          rw [countOcc_cons] at hocc
          rw [replaceAll_cons]
          unfold replaceOnce
          split
          case isTrue h =>
              rw [if_pos h] at hocc
              have hz : countOcc ((c :: rest).drop pat.length) pat = 0 := by omega
              have hd := drop_match_length_le c rest pat h.1
              have hr : rest.length ≤ n := by
                simp only [List.length_cons] at hs; omega
              rw [replaceAll_no_occurrence pat rep n _ (le_trans hd hr) hz]
          case isFalse h =>
              rw [if_neg h] at hocc
              have hr : rest.length ≤ n := by
                simp only [List.length_cons] at hs; omega
              rw [ih rest hr hocc]

/-- Modelled from the spec: the result of `ConfigInput::get_user_info` /
`ProviderConfig::get_user_info` (the function itself is not part of the
streaming-core sources): a provider's base URL, username and password,
available only when credentials are configured (§3 "optional
username/password"); callers receive `Option InputUserInfo`. -/
structure InputUserInfo where
  base_url : Str
  username : Str
  password : Str
deriving DecidableEq, Repr

/-- `get_stream_alternative_url(stream_url, input, alias_input)`: the two
`get_user_info()` results are passed as `Option InputUserInfo`; when either
side lacks credentials the original URL is returned, otherwise base URL,
username and password are each substituted with `str::replace`
(all occurrences). -/
def get_stream_alternative_url (stream_url : Str)
    (input_user_info alt_input_user_info : Option InputUserInfo) : Str :=
  match input_user_info with
  | none => stream_url
  | some i =>
      match alt_input_user_info with
      | none => stream_url
      | some a =>
          let modified := replaceAll stream_url i.base_url a.base_url
          let modified := replaceAll modified i.username a.username
          replaceAll modified i.password a.password

/-- The next provider picked by the allocator for the redirect path: its URL
and optional credentials (from `ProviderConfig`, fields used by
`get_redirect_alternative_url`). -/
structure ProviderConfig where
  url : Str
  username : Option Str
  password : Option Str
deriving DecidableEq, Repr

/-- `get_redirect_alternative_url(app_state, redirect_url, input)`: the
results of `input.get_matched_config_by_url(redirect_url)` (the matched base
URL with optional credentials) and of
`app_state.active_provider.get_next_provider(&input.name)` are passed as
arguments, both being outside the streaming-core sources.  Base URL, username
and password are substituted with `str::replacen(_, _, 1)` (first occurrence
only); when the matched config has credentials but the next provider lacks
one, the original URL is returned. -/
def get_redirect_alternative_url (redirect_url : Str)
    (matched : Option (Str × Option Str × Option Str))
    (next_provider : Option ProviderConfig) : Str :=
  match matched with
  | none => redirect_url
  | some (base_url, username, password) =>
      match next_provider with
      | none => redirect_url
      | some provider_cfg =>
          let new_url := replaceOnce redirect_url base_url provider_cfg.url
          match username, password with
          | some old_username, some old_password =>
              match provider_cfg.username, provider_cfg.password with
              | some new_username, some new_password =>
                  replaceOnce (replaceOnce new_url old_username new_username)
                    old_password new_password
              | _, _ => redirect_url
          | _, _ => new_url

/-- Modelled from the spec (§4.1 `rewrite_url`), for comparison with the
implementation: substitutes base URL, username and password segments exactly
once each; if credentials are present on one side only, falls back to
returning the original URL. -/
def rewrite_url_spec (original_url : Str)
    (from_info to_info : Option InputUserInfo) : Str :=
  match from_info, to_info with
  | some i, some a =>
      replaceOnce (replaceOnce (replaceOnce original_url i.base_url a.base_url)
        i.username a.username) i.password a.password
  | _, _ => original_url

/-- Concrete URL for the C7 counterexample: the username occurs twice. -/
def c7Url : Str := "http://a/alice/pw1/alice.ts".data

/-- Source-provider credentials for the C7 counterexample. -/
def c7From : InputUserInfo :=
  { base_url := "http://a".data, username := "alice".data, password := "pw1".data }

/-- Target-provider credentials for the C7 counterexample. -/
def c7To : InputUserInfo :=
  { base_url := "http://b".data, username := "bob".data, password := "pw2".data }

/-- C7 counterexample: on a URL containing the username twice, the stream
rewrite (`get_stream_alternative_url`) substitutes *every* occurrence, so it
differs from the spec's exactly-once substitution: the claim that base URL,
username and password are substituted exactly once each fails on this input. -/
theorem c7_stream_rewrite_not_exactly_once :
    get_stream_alternative_url c7Url (some c7From) (some c7To) =
      "http://b/bob/pw2/bob.ts".data ∧
    rewrite_url_spec c7Url (some c7From) (some c7To) =
      "http://b/bob/pw2/alice.ts".data ∧
    get_stream_alternative_url c7Url (some c7From) (some c7To) ≠
      rewrite_url_spec c7Url (some c7From) (some c7To) := by
  decide

/-- C7 (amended): the redirect rewrite substitutes base URL, username and
password exactly once each and falls back to the original URL exactly when
the matched config has credentials and the next provider lacks one; the
stream rewrite substitutes every occurrence of each segment — agreeing with
the exactly-once substitution whenever each segment occurs at most once at
its substitution step — and falls back to the original URL when either
provider lacks credentials. -/
theorem url_rewrite_semantics :
    (∀ (url : Str) (i a : InputUserInfo),
      countOcc url i.base_url ≤ 1 →
      countOcc (replaceAll url i.base_url a.base_url) i.username ≤ 1 →
      countOcc (replaceAll (replaceAll url i.base_url a.base_url)
        i.username a.username) i.password ≤ 1 →
      get_stream_alternative_url url (some i) (some a) =
        rewrite_url_spec url (some i) (some a)) ∧
    (∀ (url : Str) (o : Option InputUserInfo),
      get_stream_alternative_url url none o = url ∧
      get_stream_alternative_url url o none = url) ∧
    (∀ (url base old_u old_p : Str) (next : ProviderConfig),
      next.username = none ∨ next.password = none →
      get_redirect_alternative_url url (some (base, some old_u, some old_p))
        (some next) = url) ∧
    (∀ (url base old_u old_p nu np : Str) (next : ProviderConfig),
      next.username = some nu → next.password = some np →
      get_redirect_alternative_url url (some (base, some old_u, some old_p))
        (some next) =
        replaceOnce (replaceOnce (replaceOnce url base next.url) old_u nu)
          old_p np) := by
  refine ⟨?_, ?_, ?_, ?_⟩
  · intro url i a h1 h2 h3
    simp only [get_stream_alternative_url, rewrite_url_spec]
    rw [replaceAll_eq_replaceOnce i.base_url a.base_url url.length url (le_refl _) h1]
    rw [← replaceAll_eq_replaceOnce i.base_url a.base_url url.length url (le_refl _) h1]
    rw [replaceAll_eq_replaceOnce i.username a.username _ _ (le_refl _) h2]
    rw [← replaceAll_eq_replaceOnce i.username a.username _ _ (le_refl _) h2]
    rw [replaceAll_eq_replaceOnce i.password a.password _ _ (le_refl _) h3]
  · intro url o
    constructor
    · rfl
    · cases o <;> rfl
  · intro url base old_u old_p next h
    simp only [get_redirect_alternative_url]
    rcases h with h | h <;> rw [h] <;>
      first
        | rfl
        | (cases hnu : next.username <;> rfl)
  · intro url base old_u old_p nu np next hu hp
    simp only [get_redirect_alternative_url, hu, hp]

/-- Witness for `url_rewrite_semantics`: the spec's redirect scenario (base
`http://a/`, user `ua`, pass `pa` rewritten to `http://b/`, `ub`, `pb`) where
each segment occurs exactly once, plus a fallback case. -/
theorem url_rewrite_semantics_witness :
    get_stream_alternative_url "http://a/live/ua/pa/42.ts".data
      (some { base_url := "http://a".data, username := "ua".data, password := "pa".data })
      (some { base_url := "http://b".data, username := "ub".data, password := "pb".data }) =
      rewrite_url_spec "http://a/live/ua/pa/42.ts".data
        (some { base_url := "http://a".data, username := "ua".data, password := "pa".data })
        (some { base_url := "http://b".data, username := "ub".data, password := "pb".data }) ∧
    get_redirect_alternative_url "http://a/live/ua/pa/42.ts".data
      (some ("http://a".data, some "ua".data, some "pa".data))
      (some { url := "http://b".data, username := some "ub".data, password := none }) =
      "http://a/live/ua/pa/42.ts".data :=
  ⟨url_rewrite_semantics.1 "http://a/live/ua/pa/42.ts".data
      { base_url := "http://a".data, username := "ua".data, password := "pa".data }
      { base_url := "http://b".data, username := "ub".data, password := "pb".data }
      (by decide) (by decide) (by decide),
   url_rewrite_semantics.2.2.1 "http://a/live/ua/pa/42.ts".data
      "http://a".data "ua".data "pa".data
      { url := "http://b".data, username := some "ub".data, password := none }
      (Or.inr rfl)⟩

/-- C8: when source and target provider carry equal base URL, username and
password, the stream rewrite is the identity, and applying it twice equals
applying it once. -/
theorem url_rewrite_identity (url : Str) (i a : InputUserInfo)
    (hb : i.base_url = a.base_url) (hu : i.username = a.username)
    (hp : i.password = a.password) :
    get_stream_alternative_url url (some i) (some a) = url ∧
    get_stream_alternative_url
        (get_stream_alternative_url url (some i) (some a)) (some i) (some a) =
      get_stream_alternative_url url (some i) (some a) := by
  have hid : get_stream_alternative_url url (some i) (some a) = url := by
    simp only [get_stream_alternative_url, ← hb, ← hu, ← hp]
    rw [replaceAll_self i.base_url url.length url (le_refl _)]
    rw [replaceAll_self i.username url.length url (le_refl _)]
    rw [replaceAll_self i.password url.length url (le_refl _)]
  exact ⟨hid, by rw [hid, hid]⟩

/-- Witness for `url_rewrite_identity` at a concrete URL and provider. -/
theorem url_rewrite_identity_witness :
    get_stream_alternative_url "http://a/live/ua/pa/42.ts".data
      (some { base_url := "http://a".data, username := "ua".data, password := "pa".data })
      (some { base_url := "http://a".data, username := "ua".data, password := "pa".data }) =
      "http://a/live/ua/pa/42.ts".data ∧
    get_stream_alternative_url
        (get_stream_alternative_url "http://a/live/ua/pa/42.ts".data
          (some { base_url := "http://a".data, username := "ua".data, password := "pa".data })
          (some { base_url := "http://a".data, username := "ua".data, password := "pa".data }))
        (some { base_url := "http://a".data, username := "ua".data, password := "pa".data })
        (some { base_url := "http://a".data, username := "ua".data, password := "pa".data }) =
      get_stream_alternative_url "http://a/live/ua/pa/42.ts".data
        (some { base_url := "http://a".data, username := "ua".data, password := "pa".data })
        (some { base_url := "http://a".data, username := "ua".data, password := "pa".data }) :=
  url_rewrite_identity "http://a/live/ua/pa/42.ts".data
    { base_url := "http://a".data, username := "ua".data, password := "pa".data }
    { base_url := "http://a".data, username := "ua".data, password := "pa".data }
    rfl rfl rfl

/-! ### Canned-response loading (`config/base.rs`) -/

/-- A file on disk, as seen by `load_and_set_file`: its byte contents (the
metadata size equals the byte count).  A missing file is `Option.none` at the
call site; I/O failures of `metadata`/`open`/`read` are outside the model. -/
structure FsFile where
  bytes : List Nat
deriving DecidableEq, Repr

/-- `MAX_RESPONSE_SIZE` (10 MiB). -/
def MAX_RESPONSE_SIZE : Nat := 10 * 1024 * 1024

/-- `TransportStreamBuffer::new(data)`: the canned MPEG-TS payload taken
verbatim from the file. -/
structure TransportStreamBuffer where
  data : List Nat
deriving DecidableEq, Repr

/-- `load_and_set_file(file_path)` (nested in
`Config::prepare_custom_stream_response`): reject a missing file, a file
larger than `MAX_RESPONSE_SIZE`, and a file whose first byte is not `0x47`
(`read_exact` of one byte also fails on an empty file); otherwise load the
bytes verbatim. -/
def load_and_set_file (file : Option FsFile) : Option TransportStreamBuffer :=
  match file with
  | none => none
  | some f =>
      if f.bytes.length > MAX_RESPONSE_SIZE then none
      else
        match f.bytes with
        | [] => none
        | b :: _ => if b ≠ 0x47 then none else some { data := f.bytes }

/-- The four canned responses prepared by
`Config::prepare_custom_stream_response`, each loaded once with
`load_and_set_file`. -/
structure CustomStreamResponse where
  channel_unavailable : Option TransportStreamBuffer
  user_connections_exhausted : Option TransportStreamBuffer
  provider_connections_exhausted : Option TransportStreamBuffer
  user_account_expired : Option TransportStreamBuffer
deriving DecidableEq, Repr

/-- `Config::prepare_custom_stream_response`: loads the four `.ts` files of
the custom-response directory. -/
def prepare_custom_stream_response
    (channel_unavailable user_connections_exhausted
      provider_connections_exhausted user_account_expired : Option FsFile) :
    CustomStreamResponse :=
  { channel_unavailable := load_and_set_file channel_unavailable
    user_connections_exhausted := load_and_set_file user_connections_exhausted
    provider_connections_exhausted := load_and_set_file provider_connections_exhausted
    user_account_expired := load_and_set_file user_account_expired }

/-- C9: a canned-response file whose first byte is not `0x47`, or whose size
exceeds 10 MiB, is rejected (`None`); an existing file passing both checks is
loaded with its bytes verbatim into the `TransportStreamBuffer`. -/
theorem load_and_set_file_validation (f : FsFile) (b : Nat) (rest : List Nat)
    (hbytes : f.bytes = b :: rest) :
    ((b ≠ 0x47 ∨ f.bytes.length > MAX_RESPONSE_SIZE) →
      load_and_set_file (some f) = none) ∧
    ((b = 0x47 ∧ f.bytes.length ≤ MAX_RESPONSE_SIZE) →
      load_and_set_file (some f) = some { data := f.bytes }) := by
  constructor
  · intro h
    simp only [load_and_set_file]
    rcases h with h | h
    · by_cases hsz : f.bytes.length > MAX_RESPONSE_SIZE
      · rw [if_pos hsz]
      · rw [if_neg hsz, hbytes]
        simp only
        rw [if_pos h]
    · rw [if_pos h]
  · intro ⟨h47, hsz⟩
    simp only [load_and_set_file]
    rw [if_neg (by omega), hbytes]
    simp only
    rw [if_neg (by simp [h47])]

/-- Witness for `load_and_set_file_validation`: a two-byte MPEG-TS stub with
sync byte `0x47` loads verbatim. -/
theorem load_and_set_file_validation_witness :
    ((0x47 ≠ 0x47 ∨ (FsFile.mk [0x47, 0x11]).bytes.length > MAX_RESPONSE_SIZE) →
      load_and_set_file (some (FsFile.mk [0x47, 0x11])) = none) ∧
    ((0x47 = 0x47 ∧ (FsFile.mk [0x47, 0x11]).bytes.length ≤ MAX_RESPONSE_SIZE) →
      load_and_set_file (some (FsFile.mk [0x47, 0x11])) =
        some { data := (FsFile.mk [0x47, 0x11]).bytes }) :=
  load_and_set_file_validation (FsFile.mk [0x47, 0x11]) 0x47 [0x11] rfl

/-! ### EPG merge (`xmltv.rs`) -/

/-- XMLTV tag name and attribute constants, from `crate::model`. -/
def EPG_TAG_TV : String := "tv"

/-- The `channel` tag name. -/
def EPG_TAG_CHANNEL : String := "channel"

/-- The `programme` tag name. -/
def EPG_TAG_PROGRAMME : String := "programme"

/-- The channel `id` attribute. -/
def EPG_ATTRIB_ID : String := "id"

/-- The programme `channel` attribute. -/
def EPG_ATTRIB_CHANNEL : String := "channel"

/-- An XMLTV tag, from `struct XmlTag`: name, attribute map and the
normalized display names collected by `prepare_tag`.  The `value`, `children`
and `icon` fields of the Rust struct are carried verbatim through the merge
and never consulted by the embedded operations, so they are omitted here. -/
structure XmlTag where
  name : String
  attributes : List (String × String)
  normalized_epg_ids : Option (List String)
deriving DecidableEq, Repr

/-- `XmlTag::get_attribute_value(key)`. -/
def XmlTag.get_attribute_value (tag : XmlTag) (key : String) : Option String :=
  (tag.attributes.find? (fun kv => kv.1 == key)).map (fun kv => kv.2)

/-- A parsed EPG source, from `struct Epg`: priority (`i16`), root `tv`
attributes and the filtered channel/programme tags. -/
structure Epg where
  logo_override : Bool
  priority : Int
  attributes : Option (List (String × String))
  children : List XmlTag
deriving DecidableEq, Repr

/-- The `channel_mapping` map of `flatten_tvguide`
(`HashMap<String, i16>`), as a partial function. -/
def ChannelMap : Type := String → Option Int

/-- Insert (or overwrite) a channel id's owning priority. -/
def setChan (m : ChannelMap) (id : String) (p : Int) : ChannelMap :=
  fun v => if v = id then some p else m v

/-- The channel pass of one guide inside `flatten_tvguide`'s loop: a channel
tag is kept when its id is unmapped (`Entry::Vacant`) or mapped to a strictly
larger priority number (`Entry::Occupied` with `guide.priority < stored`);
in both cases the map is updated to the guide's priority. -/
def flatten_channel_pass (m : ChannelMap) (prio : Int) :
    List XmlTag → ChannelMap × List XmlTag
  | [] => (m, [])
  | c :: rest =>
      if c.name = EPG_TAG_CHANNEL then
        match c.get_attribute_value EPG_ATTRIB_ID with
        | some chan_id =>
            match m chan_id with
            | none =>
                let r := flatten_channel_pass (setChan m chan_id prio) prio rest
                (r.1, c :: r.2)
            | some stored =>
                if prio < stored then
                  let r := flatten_channel_pass (setChan m chan_id prio) prio rest
                  (r.1, c :: r.2)
                else
                  flatten_channel_pass m prio rest
        | none => flatten_channel_pass m prio rest
      else
        flatten_channel_pass m prio rest

/-- The programme pass of one guide inside `flatten_tvguide`'s loop: a
programme tag is kept when its `channel` attribute is mapped to exactly this
guide's priority. -/
def flatten_programme_pass (m : ChannelMap) (prio : Int)
    (children : List XmlTag) : List XmlTag :=
  children.filter (fun c =>
    c.name == EPG_TAG_PROGRAMME &&
      match c.get_attribute_value EPG_ATTRIB_CHANNEL with
      | some chan_id => m chan_id == some prio
      | none => false)

/-- Both passes of `flatten_tvguide`'s loop body for one guide: channels
first, then programmes against the updated map. -/
def flatten_guide_pass (m : ChannelMap) (g : Epg) : ChannelMap × List XmlTag :=
  let r := flatten_channel_pass m g.priority g.children
  (r.1, r.2 ++ flatten_programme_pass r.1 g.priority g.children)

/-- `flatten_tvguide`'s loop over the sorted guides under the *fully
serialized* schedule: each guide's closure runs to completion, in the
ascending-priority order the sort establishes, before the next starts.  This
is one legal schedule of the `par_iter().for_each(..)` loop (the one a
single-threaded pool realizes); the general interleavings are modelled by
`flatten_race_step`/`flatten_race_run` below, and schedule choice is
observable (see the C2 theorem), the loop's own comment notwithstanding. -/
def flatten_loop : List Epg → ChannelMap → List XmlTag
  | [], _ => []
  | g :: gs, m =>
      let r := flatten_guide_pass m g
      r.2 ++ flatten_loop gs r.1

/-- Stable insertion into a priority-sorted guide list: the inserted guide
goes before every guide of priority not below its own, preserving the
relative order of equal priorities. -/
def insertByPriority (g : Epg) : List Epg → List Epg
  | [] => [g]
  | h :: t => if h.priority < g.priority then h :: insertByPriority g t else g :: h :: t

/-- The `sorted_guides.sort_by(|a, b| a.priority.cmp(&b.priority))` of
`flatten_tvguide`: a stable ascending sort by priority (Rust's `sort_by` is
stable; any stable sort produces the same list). -/
def sortByPriority : List Epg → List Epg
  | [] => []
  | g :: gs => insertByPriority g (sortByPriority gs)

/-- `flatten_tvguide(tv_guides)`: `None` on an empty list, otherwise the
merged `Epg` with the first source's `tv` attributes and the children
produced by the per-guide passes over the priority-sorted copy — under the
fully serialized schedule (see `flatten_loop`); other schedules of the
parallel loop can produce different children. -/
def flatten_tvguide (tv_guides : List Epg) : Option Epg :=
  match tv_guides with
  | [] => none
  | _ :: _ =>
      let epg_attributes := tv_guides.head?.bind (fun t => t.attributes)
      let sorted_guides := sortByPriority tv_guides
      some
        { logo_override := false
          priority := 0
          attributes := epg_attributes
          children := flatten_loop sorted_guides (fun _ => none) }

/-- A channel tag carrying the given id. -/
def isChannelWithId (id : String) (c : XmlTag) : Bool :=
  c.name == EPG_TAG_CHANNEL && c.get_attribute_value EPG_ATTRIB_ID == some id

/-- A programme tag referencing the given channel id. -/
def isProgrammeWithChannel (id : String) (c : XmlTag) : Bool :=
  c.name == EPG_TAG_PROGRAMME && c.get_attribute_value EPG_ATTRIB_CHANNEL == some id

/-- A guide contains a channel tag with the given id. -/
def epgContainsChannel (id : String) (g : Epg) : Bool :=
  g.children.any (isChannelWithId id)

/-- Channel tag `c1` for the C2 counterexample. -/
def c2Chan : XmlTag :=
  { name := "channel", attributes := [("id", "c1")], normalized_epg_ids := none }

/-- Programme for `c1` from the first source. -/
def c2ProgA : XmlTag :=
  { name := "programme", attributes := [("channel", "c1"), ("start", "1")],
    normalized_epg_ids := none }

/-- Programme for `c1` from the second source. -/
def c2ProgB : XmlTag :=
  { name := "programme", attributes := [("channel", "c1"), ("start", "2")],
    normalized_epg_ids := none }

/-- First source, priority 0. -/
def c2GuideA : Epg :=
  { logo_override := false, priority := 0, attributes := none,
    children := [c2Chan, c2ProgA] }

/-- Second source, also priority 0, same channel id. -/
def c2GuideB : Epg :=
  { logo_override := false, priority := 0, attributes := none,
    children := [c2Chan, c2ProgB] }

/-- Source of priority 0 containing channel `c1` (race demonstration). -/
def c2rGuide0 : Epg :=
  { logo_override := false, priority := 0, attributes := none,
    children := [c2Chan, c2ProgA] }

/-- Source of priority 1, also containing channel `c1`. -/
def c2rGuide1 : Epg :=
  { logo_override := false, priority := 1, attributes := none,
    children := [c2Chan, c2ProgB] }

/-- One guide's closure of `flatten_tvguide`'s `par_iter().for_each(..)` as a
task: the two sweeps over the guide's children still to run, the closure's
local `children` vector, and whether the final
`epg_children.lock().extend(children)` has happened. -/
structure FlattenTask where
  prio : Int
  chanRemaining : List XmlTag
  progRemaining : List XmlTag
  localChildren : List XmlTag
  published : Bool
deriving DecidableEq, Repr

/-- The task a guide starts as: both sweeps pending over its children. -/
def FlattenTask.ofEpg (g : Epg) : FlattenTask :=
  { prio := g.priority
    chanRemaining := g.children
    progRemaining := g.children
    localChildren := []
    published := false }

/-- The shared state of the parallel loop: the `channel_mapping` `RwLock`, the
per-guide tasks, and the shared `epg_children` vector. -/
structure FlattenState where
  channel_mapping : ChannelMap
  tasks : List FlattenTask
  epg_children : List XmlTag

/-- Initial state of the parallel loop over the priority-sorted guides. -/
def flatten_race_init (tv_guides : List Epg) : FlattenState :=
  { channel_mapping := fun _ => none
    tasks := (sortByPriority tv_guides).map FlattenTask.ofEpg
    epg_children := [] }

/-- One channel-sweep step of a guide on one child: the `Entry` check-and-set
under the `channel_mapping` write lock (keep the tag and claim the id when it
is vacant or held at a strictly larger priority).  The preceding read-locked
`should_add` test is a pure optimisation: stored priorities only ever
decrease, so a "do not add" answer at the read is still the answer at the
write lock, and a "maybe" answer is re-decided there; a non-channel child
takes no lock and does nothing. -/
def flatten_channel_step (m : ChannelMap) (prio : Int) (c : XmlTag) :
    ChannelMap × List XmlTag :=
  if c.name = EPG_TAG_CHANNEL then
    match c.get_attribute_value EPG_ATTRIB_ID with
    | some chan_id =>
        match m chan_id with
        | none => (setChan m chan_id prio, [c])
        | some stored =>
            if prio < stored then (setChan m chan_id prio, [c]) else (m, [])
    | none => (m, [])
  else
    (m, [])

/-- One programme-sweep step of a guide on one child: the read-locked lookup
keeping the programme exactly when its channel id is currently mapped to this
guide's priority. -/
def flatten_programme_step (m : ChannelMap) (prio : Int) (c : XmlTag) :
    List XmlTag :=
  if c.name = EPG_TAG_PROGRAMME then
    match c.get_attribute_value EPG_ATTRIB_CHANNEL with
    | some chan_id => if m chan_id = some prio then [c] else []
    | none => []
  else
    []

/-- One atomic step of task `i` (each step holds exactly one lock, matching
the source's lock granularity): the next channel-sweep child, else the next
programme-sweep child, else the final extend of the shared `epg_children`;
a finished or out-of-range task leaves the state unchanged. -/
def flatten_race_step (st : FlattenState) (i : Nat) : FlattenState :=
  match st.tasks[i]? with
  | none => st
  | some t =>
      match t.chanRemaining with
      | c :: rest =>
          let r := flatten_channel_step st.channel_mapping t.prio c
          { st with
              channel_mapping := r.1
              tasks := st.tasks.set i
                { t with chanRemaining := rest
                         localChildren := t.localChildren ++ r.2 } }
      | [] =>
          match t.progRemaining with
          | c :: rest =>
              let pushed := flatten_programme_step st.channel_mapping t.prio c
              { st with
                  tasks := st.tasks.set i
                    { t with progRemaining := rest
                             localChildren := t.localChildren ++ pushed } }
          | [] =>
              if t.published then st
              else
                { st with
                    epg_children := st.epg_children ++ t.localChildren
                    tasks := st.tasks.set i { t with published := true } }

/-- Run the parallel loop under a schedule: the list of task indices in the
order their next atomic steps are granted. -/
def flatten_race_run (st : FlattenState) : List Nat → FlattenState
  | [] => st
  | i :: sched => flatten_race_run (flatten_race_step st i) sched

/-- C2: the merge violates the claimed minimum-priority exclusivity, so the
claim (the spec's merge rule, backed by the invariant that channel ids in a
merged EPG are unique and by the loop's own comment that parallel execution
is order-independent) is right and the code is wrong.
(a) Priority tie, deterministic: two sources of equal priority both
containing channel `c1` — the merge emits the programmes of *both* sources,
under every schedule (shown here on the serialized one, `flatten_tvguide`).
(b) Adequacy: on the race input, the interleaving model run on the fully
serialized ascending schedule reproduces `flatten_tvguide`'s children.
(c) Distinct priorities, racy schedule: with sources of priorities 0 and 1
both containing `c1`, scheduling the priority-1 task to completion before the
priority-0 task starts makes the output carry *two* channel tags for `c1`
(duplicate id) and the programmes of both sources, although the priority-0
source is the unique minimum-priority source containing `c1`. -/
theorem c2_priority_merge_violations :
    ((flatten_tvguide [c2GuideA, c2GuideB]).map
        (fun out => out.children.filter (isProgrammeWithChannel "c1")) =
      some [c2ProgA, c2ProgB] ∧
     epgContainsChannel "c1" c2GuideA = true ∧
     epgContainsChannel "c1" c2GuideB = true ∧
     [c2ProgA, c2ProgB] ≠ c2GuideA.children.filter (isProgrammeWithChannel "c1") ∧
     [c2ProgA, c2ProgB] ≠ c2GuideB.children.filter (isProgrammeWithChannel "c1")) ∧
    ((flatten_race_run (flatten_race_init [c2rGuide0, c2rGuide1])
        [0, 0, 0, 0, 0, 1, 1, 1, 1, 1]).epg_children =
      (flatten_tvguide [c2rGuide0, c2rGuide1]).elim [] (fun out => out.children)) ∧
    (c2rGuide0.priority < c2rGuide1.priority ∧
     epgContainsChannel "c1" c2rGuide0 = true ∧
     epgContainsChannel "c1" c2rGuide1 = true ∧
     (flatten_race_run (flatten_race_init [c2rGuide0, c2rGuide1])
        [1, 1, 1, 1, 1, 0, 0, 0, 0, 0]).epg_children.filter
          (isChannelWithId "c1") = [c2Chan, c2Chan] ∧
     (flatten_race_run (flatten_race_init [c2rGuide0, c2rGuide1])
        [1, 1, 1, 1, 1, 0, 0, 0, 0, 0]).epg_children.filter
          (isProgrammeWithChannel "c1") = [c2ProgB, c2ProgA] ∧
     c2ProgB ∈ c2rGuide1.children ∧
     c2ProgB ∉ c2rGuide0.children) := by
  decide

/-! ### Fuzzy channel matching (`xmltv.rs`) -/

/-- The `EpgSmartMatchConfig` fields consulted by fuzzy matching. -/
structure EpgSmartMatchConfig where
  enabled : Bool
  fuzzy_matching : Bool
  match_threshold : Nat
  best_match_threshold : Nat
deriving DecidableEq, Repr

/-- Modelled from the spec: the `EpgIdCache` fields consulted by
`try_fuzzy_matching` / `find_best_fuzzy_match` (the struct lives in
`processing::processor::epg`, outside the given sources): the requested
channel-id set, the prebuilt normalized index mapping each normalized key to
an optionally bound channel id (`HashMap<String, Option<String>>`, written by
the binding step), and the phonetic buckets keyed by Metaphone code. -/
structure EpgIdCache where
  smart_match_config : EpgSmartMatchConfig
  channel_epg_id : List String
  normalized : List (String × Option String)
  phonetics : List (String × List String)
deriving DecidableEq, Repr

/-- Bucket lookup in `id_cache.phonetics`. -/
def lookupBucket (cache : EpgIdCache) (code : String) : Option (List String) :=
  (cache.phonetics.find? (fun kv => kv.1 == code)).map (fun kv => kv.2)

/-- Lookup in the normalized index. -/
def lookupNormalized (cache : EpgIdCache) (key : String) :
    Option (Option String) :=
  (cache.normalized.find? (fun kv => kv.1 == key)).map (fun kv => kv.2)

/-- Overwrite the binding of a normalized key
(`entry(key).and_modify(|e| e.replace(id))`). -/
def setNormalized (cache : EpgIdCache) (key : String) (v : Option String) :
    List (String × Option String) :=
  cache.normalized.map (fun kv => if kv.1 == key then (kv.1, v) else kv)

/-- The candidate scan of `find_best_fuzzy_match` over one phonetic bucket
(the sequential semantics of the `par_iter().find_any(..)` loop with its
`data` mutex, as the spec's design notes fix it): each candidate scoring at
least `match_threshold` may improve the best pair, and scanning stops once a
score exceeds `best_match_threshold`.  `jwRounded` stands for the external
`(strsim::jaro_winkler(..) * 100.0).round() as u16`; the source clamps it
with `min(100, _)`. -/
def scan_bucket (jwRounded : String → String → Nat)
    (match_threshold best_match_threshold : Nat) (tag_normalized : String) :
    List String → Nat × Option String → Nat × Option String
  | [], data => data
  | norm_key :: rest, data =>
      let mjw := min 100 (jwRounded norm_key tag_normalized)
      if mjw ≥ match_threshold then
        let data1 := if data.1 < mjw then (mjw, some norm_key) else data
        if mjw > best_match_threshold then data1
        else scan_bucket jwRounded match_threshold best_match_threshold
          tag_normalized rest data1
      else
        scan_bucket jwRounded match_threshold best_match_threshold
          tag_normalized rest data

/-- The outer loop of `find_best_fuzzy_match` over the tag's normalized ids:
each id's Metaphone bucket (when present) is scanned.  `phonetic` stands for
the external `id_cache.phonetic(..)` (rphonetic Metaphone). -/
def fuzzy_candidate_loop (phonetic : String → String)
    (jwRounded : String → String → Nat) (cache : EpgIdCache)
    (match_threshold best_match_threshold : Nat) :
    List String → Nat × Option String → Nat × Option String
  | [], data => data
  | tag_normalized :: rest, data =>
      let data1 :=
        match lookupBucket cache (phonetic tag_normalized) with
        | some bucket =>
            scan_bucket jwRounded match_threshold best_match_threshold
              tag_normalized bucket data
        | none => data
      fuzzy_candidate_loop phonetic jwRounded cache match_threshold
        best_match_threshold rest data1

/-- `TVGuide::find_best_fuzzy_match`: runs the candidate loop into the `data`
mutex, then consults `early_exit_flag` — an `AtomicBool` created `false` and
never stored to — so the collected best candidate is only returned when the
flag is set. -/
def find_best_fuzzy_match (phonetic : String → String)
    (jwRounded : String → String → Nat) (id_cache : EpgIdCache)
    (tag : XmlTag) : Bool × Option String :=
  let early_exit_flag := false
  let match_threshold := id_cache.smart_match_config.match_threshold
  let best_match_threshold := id_cache.smart_match_config.best_match_threshold
  let data :=
    match tag.normalized_epg_ids with
    | some normalized_epg_ids =>
        fuzzy_candidate_loop phonetic jwRounded id_cache match_threshold
          best_match_threshold normalized_epg_ids (0, none)
    | none => (0, none)
  if early_exit_flag then (true, data.2)
  else (false, none)

/-- `TVGuide::try_fuzzy_matching`: exact/normalized matching
(`match_with_normalized`, outside the given sources, passed as `mwn`), then —
when it failed and fuzzy matching is enabled — the fuzzy lookup, whose match
binds the matched normalized key to the channel's epg id and inserts the id
into the requested-id set.  (The Rust `unwrap()` of the matched name can only
panic when `fuzzy_matched` holds with no name, which never happens.) -/
def try_fuzzy_matching (phonetic : String → String)
    (jwRounded : String → String → Nat) (mwn : String → List String → Bool)
    (id_cache : EpgIdCache) (epg_id : String) (tag : XmlTag)
    (fuzzy_matching : Bool) : Bool × EpgIdCache :=
  let matched := (tag.normalized_epg_ids.elim false (fun ids => mwn epg_id ids))
  if ¬ matched = true ∧ fuzzy_matching = true then
    let r := find_best_fuzzy_match phonetic jwRounded id_cache tag
    if r.1 then
      match r.2 with
      | some key =>
          match lookupNormalized id_cache key with
          | some _ =>
              (true,
                { id_cache with
                  normalized := setNormalized id_cache key (some epg_id)
                  channel_epg_id := epg_id :: id_cache.channel_epg_id })
          | none => (matched, id_cache)
      | none => (matched, id_cache)
    else
      (matched, id_cache)
  else
    (matched, id_cache)

/-- Thresholds for the C3 failing input (spec scenario: threshold 85). -/
def c3Config : EpgSmartMatchConfig :=
  { enabled := true, fuzzy_matching := true,
    match_threshold := 85, best_match_threshold := 99 }

/-- Cache for the C3 failing input: the requested normalized id `hbohd` sits
unbound in the normalized index and in the phonetic bucket `HBT`. -/
def c3Cache : EpgIdCache :=
  { smart_match_config := c3Config
    channel_epg_id := []
    normalized := [("hbohd", none)]
    phonetics := [("HBT", ["hbohd"])] }

/-- XMLTV channel `x.hbo` whose display name normalizes to `hbohd2`. -/
def c3Tag : XmlTag :=
  { name := "channel", attributes := [("id", "x.hbo")],
    normalized_epg_ids := some ["hbohd2"] }

/-- C3: the fuzzy path of channel matching is dead code.
`find_best_fuzzy_match` always returns `(false, none)` — its `early_exit_flag`
is created `false` and never set, so the best candidate collected by the scan
is discarded — and `try_fuzzy_matching` therefore returns exactly the
`match_with_normalized` verdict with the cache unchanged: no fuzzy match is
ever reported and no key is ever bound.  In particular, on the spec's
scenario (requested id `hbohd`, phonetic bucket containing it for the tag's
normalized name, Jaro-Winkler score 96 ≥ 85), the channel does not bind. -/
theorem fuzzy_matching_never_matches :
    (∀ (phonetic : String → String) (jwRounded : String → String → Nat)
      (id_cache : EpgIdCache) (tag : XmlTag),
      find_best_fuzzy_match phonetic jwRounded id_cache tag = (false, none)) ∧
    (∀ (phonetic : String → String) (jwRounded : String → String → Nat)
      (mwn : String → List String → Bool) (id_cache : EpgIdCache)
      (epg_id : String) (tag : XmlTag) (fuzzy_matching : Bool),
      try_fuzzy_matching phonetic jwRounded mwn id_cache epg_id tag
        fuzzy_matching =
        (tag.normalized_epg_ids.elim false (fun ids => mwn epg_id ids),
          id_cache)) ∧
    try_fuzzy_matching (fun _ => "HBT") (fun _ _ => 96) (fun _ _ => false)
      c3Cache "hbohd" c3Tag true = (false, c3Cache) := by
  refine ⟨fun phonetic jwRounded id_cache tag => rfl, ?_, by decide⟩
  intro phonetic jwRounded mwn id_cache epg_id tag fuzzy_matching
  by_cases h : ¬ (tag.normalized_epg_ids.elim false fun ids => mwn epg_id ids) = true ∧
      fuzzy_matching = true
  · simp only [try_fuzzy_matching, if_pos h]
    rfl
  · simp only [try_fuzzy_matching, if_neg h]
